import Mathlib

/-!
Verification of the AISQLAGENT site-resident agent core against its
natural-language specification.

The embedding translates, function by function, the TypeScript sources
`src/services/allowlist.service.ts`, `src/services/websocket.service.ts`,
`src/services/sql.service.ts` and the `/sql/configure` HTTP route.
Strings are modelled as Lean `String` / `List Char`; JavaScript regular
expressions are translated into the equivalent explicit character scans;
wall-clock instants and epoch-millisecond arithmetic use `Int`.
The SHA-256 digest and the RSA signature check of the `crypto` module are
opaque primitives of the runtime and are passed in as function parameters
(`sha`, `cryptoVerify`); every theorem is stated for an arbitrary such
oracle unless a claim forces a concrete instantiation.
-/

/-! ## JavaScript character classes (allowlist.service.ts regexes) -/

/-- The characters matched by the JavaScript regex class `\s`
(ASCII whitespace plus the Unicode space separators). -/
def isJsWhitespace (c : Char) : Bool :=
  c = ' ' || c = '\t' || c = '\n' || c = '\x0b' || c = '\x0c' || c = '\r' ||
  c = '\u00A0' || c = '\u1680' ||
  ('\u2000' ≤ c && c ≤ '\u200A') ||
  c = '\u2028' || c = '\u2029' || c = '\u202F' || c = '\u205F' ||
  c = '\u3000' || c = '\uFEFF'

/-- The character class kept by `sanitizeParam`
(`allowlist.service.ts` line 228): alphanumeric, underscore, dot, brackets. -/
def isSafeParamChar (c : Char) : Bool :=
  ('a' ≤ c && c ≤ 'z') || ('A' ≤ c && c ≤ 'Z') || ('0' ≤ c && c ≤ '9') ||
  c = '_' || c = '.' || c = '[' || c = ']'

/-! ## normalizeTemplate (allowlist.service.ts lines 140-148)

`template.replace` with the global multi-line regex (dash dash, lazy dot-star, end anchor) removes, on every line, the first `--`
and everything after it up to (not including) the end of the line; the scan
below walks the characters with a flag recording whether the position is
inside such a line comment. -/

/-- Single-line comment stripping: `inComment` is true between a `--` and
the next newline. -/
def stripLineCommentsAux : Bool → List Char → List Char
  | _, [] => []
  | true, c :: cs =>
    if c = '\n' then c :: stripLineCommentsAux false cs
    else stripLineCommentsAux true cs
  | false, '-' :: '-' :: cs => stripLineCommentsAux true cs
  | false, c :: cs => c :: stripLineCommentsAux false cs

/-- The line-comment pass of `normalizeTemplate` (dash-dash to end of line, global, multi-line). -/
def stripLineComments (l : List Char) : List Char :=
  stripLineCommentsAux false l

/-- Does the closing delimiter `*/` occur anywhere in the list?  The lazy
regex `\/\*[\s\S]*?\*\//` only matches when a closing delimiter exists. -/
def hasCloseDelim : List Char → Bool
  | [] => false
  | '*' :: '/' :: _ => true
  | _ :: cs => hasCloseDelim cs

/-- Block comment stripping for `normalized.replace(/\/\*[\s\S]*?\*\//g, '')`:
`inComment` is true between a `/*` and the first following `*/`; an
unterminated `/*` (no `*/` ahead) is left verbatim, exactly as the regex
leaves it unmatched. -/
def stripBlockCommentsAux : Bool → List Char → List Char
  | _, [] => []
  | true, '*' :: '/' :: cs => stripBlockCommentsAux false cs
  | true, _ :: cs => stripBlockCommentsAux true cs
  | false, '/' :: '*' :: cs =>
    if hasCloseDelim cs then stripBlockCommentsAux true cs
    else '/' :: '*' :: cs
  | false, c :: cs => c :: stripBlockCommentsAux false cs

/-- `normalized.replace(/\/\*[\s\S]*?\*\//g, '')`. -/
def stripBlockComments (l : List Char) : List Char :=
  stripBlockCommentsAux false l

/-- The maximal whitespace-free runs of a character list, in order
(the non-empty fields of `split(/\s+/)`); `cur` accumulates the current
run in reverse. -/
def wordsAux : List Char → List Char → List (List Char)
  | cur, [] => if cur.isEmpty then [] else [cur.reverse]
  | cur, c :: cs =>
    if isJsWhitespace c then
      if cur.isEmpty then wordsAux [] cs
      else cur.reverse :: wordsAux [] cs
    else wordsAux (c :: cur) cs

/-- `split(/\s+/)` restricted to its non-empty fields. -/
def splitWhitespaceRuns (l : List Char) : List (List Char) :=
  wordsAux [] l

/-- Joining the runs with single spaces; together with
`splitWhitespaceRuns` this is `split(/\s+/).join(' ').trim()`. -/
def joinWithSpaces : List (List Char) → List Char
  | [] => []
  | w :: rest =>
    match rest with
    | [] => w
    | _ :: _ => w ++ ' ' :: joinWithSpaces rest

/-- `AllowlistService.normalizeTemplate`: strip `--` line comments, strip
`/* */` block comments, collapse whitespace runs to single spaces, trim. -/
def normalizeTemplate (template : String) : String :=
  String.mk (joinWithSpaces (splitWhitespaceRuns
    (stripBlockComments (stripLineComments template.data))))

/-- `AllowlistService.hashTemplate`: `"sha256:" + hex-digest` of the
normalized template; `sha` stands for the runtime's hex SHA-256 digest. -/
def hashTemplate (sha : String → String) (template : String) : String :=
  "sha256:" ++ sha (normalizeTemplate template)

/-! ## sanitizeParam / substituteParams (allowlist.service.ts 227-249) -/

/-- `AllowlistService.sanitizeParam`:
`value.replace(/[^a-zA-Z0-9_.\[\]]/g, '')`. -/
def sanitizeParam (value : String) : String :=
  String.mk (value.data.filter isSafeParamChar)

/-- Global left-to-right, non-overlapping replacement of the literal
pattern `pat` by `rep`, the semantics of a global JavaScript
`String.replace` whose compiled pattern is a plain character sequence and
whose replacement is free of `$`-escapes.  `fuel` is an upper bound on
the scan steps. -/
def replaceAllAux (pat rep : List Char) : Nat → List Char → List Char
  | 0, l => l
  | _ + 1, [] => []
  | fuel + 1, c :: cs =>
    if !pat.isEmpty && pat.isPrefixOf (c :: cs) then
      rep ++ replaceAllAux pat rep fuel ((c :: cs).drop pat.length)
    else
      c :: replaceAllAux pat rep fuel cs

/-- Replace every occurrence of the literal `pat` in `l` by `rep`. -/
def replaceAll (pat rep l : List Char) : List Char :=
  replaceAllAux pat rep l.length l

/-- The JavaScript line terminators, which the regex metacharacter dot
does not match. -/
def isLineTerminator (c : Char) : Bool :=
  c = '\n' || c = '\r' || c = '\u2028' || c = '\u2029'

/-- One element of the compiled placeholder pattern: a literal character,
or the any-character metacharacter (an unescaped dot in the source). -/
inductive PatToken where
  | lit (c : Char)
  | anyChar
deriving DecidableEq, Repr

/-- Character-wise compilation of the key interpolated — unescaped — into
the RegExp source by `substituteParams`: an unescaped dot is the
any-character metacharacter, every other modelled character a literal.
The remaining regex metacharacters (backslash escapes, quantifiers,
alternation, groups, classes, anchors, braces) would compile to richer
regexes, or raise a SyntaxError in the RegExp constructor; they are
outside this model, and every theorem quantifying over keys either
excludes them via `regexSafeKey` or uses a concrete key made of word
characters and dots, on which this compilation agrees with JavaScript. -/
def compilePatChar (c : Char) : PatToken :=
  if c = '.' then .anyChar else .lit c

/-- Is `c` a character that is special in a JavaScript regex (outside a
character class)?  A key free of these compiles to the literal
placeholder. -/
def isRegexMeta (c : Char) : Bool :=
  c = '\\' || c = '^' || c = '$' || c = '.' || c = '|' || c = '?' || c = '*' ||
  c = '+' || c = '(' || c = ')' || c = '[' || c = ']' || c = '\x7b' || c = '\x7d'

/-- A key containing no regex metacharacter: for such keys the
interpolated RegExp denotes exactly the literal placeholder. -/
def regexSafeKey (key : String) : Bool :=
  key.data.all (fun c => !isRegexMeta c)

/-- The compiled pattern of `new RegExp('\\x7b\\x7b' + key + '\\x7d\\x7d')`
built with escaped braces around the unescaped key. -/
def compilePlaceholderPattern (key : String) : List PatToken :=
  .lit '\x7b' :: .lit '\x7b' :: (key.data.map compilePatChar ++ [.lit '\x7d', .lit '\x7d'])

/-- Try to match the compiled pattern at the head of the input; on
success return the input after the consumed characters (every token
consumes exactly one). -/
def patAccepts : List PatToken → List Char → Option (List Char)
  | [], rest => some rest
  | _ :: _, [] => none
  | t :: ts, c :: cs =>
    match t with
    | .lit a => if a = c then patAccepts ts cs else none
    | .anyChar => if isLineTerminator c then none else patAccepts ts cs

/-- Global left-to-right, non-overlapping replacement of every match of
the compiled pattern, the semantics of a global `String.replace` with a
compiled RegExp and a `$`-free replacement.  `fuel` is an upper bound on
the scan steps. -/
def regexReplaceAllAux (pat : List PatToken) (rep : List Char) : Nat → List Char → List Char
  | 0, l => l
  | _ + 1, [] => []
  | fuel + 1, c :: cs =>
    match patAccepts pat (c :: cs) with
    | some rest => rep ++ regexReplaceAllAux pat rep fuel rest
    | none => c :: regexReplaceAllAux pat rep fuel cs

/-- Replace every pattern match in `l` by `rep`. -/
def regexReplaceAll (pat : List PatToken) (rep l : List Char) : List Char :=
  regexReplaceAllAux pat rep l.length l

/-- `AllowlistService.substituteParams`: for each `{key: value}` entry,
replace globally by the sanitized value every match of the RegExp built
from the escaped braces around the key — the key itself interpolated
unescaped, so a metacharacter in it (such as a dot) keeps its regex
meaning rather than standing for itself. -/
def substituteParams (template : String) (params : List (String × String)) : String :=
  String.mk (params.foldl
    (fun result kv =>
      regexReplaceAll (compilePlaceholderPattern kv.1) (sanitizeParam kv.2).data result)
    template.data)

/-! ## Catalog data model (types QueryCatalog, AllowlistValidationError) -/

/-- The error codes of `AllowlistValidationError` (allowlist.service.ts 21-29). -/
inductive AllowlistErrorCode where
  | SIGNATURE_INVALID
  | TEMPLATE_NOT_ALLOWED
  | CATALOG_MISSING
  | CATALOG_EXPIRED
deriving DecidableEq, Repr

/-- `AllowlistValidationError`: a message together with its code. -/
structure AllowlistValidationError where
  message : String
  code : AllowlistErrorCode
deriving DecidableEq, Repr

/-- The signed query catalog (`QueryCatalog` in types/messages.ts):
`queries` is the JSON object `toolId → hash` with its entries in object
order. -/
structure QueryCatalog where
  version : Int
  generated_at : String
  expires_at : String
  queries : List (String × String)
  signature : String
deriving DecidableEq, Repr

/-- The mutable fields of `AllowlistService`: the CA certificate handed to
the constructor, the current catalog, the derived `hash → toolId` map (an
insertion-ordered association list, like a JavaScript `Map`), and the
parsed expiry instant in epoch milliseconds. -/
structure AllowlistState where
  caCertificate : String
  catalog : Option QueryCatalog
  templateHashMap : List (String × String)
  expiresAt : Option Int
deriving DecidableEq, Repr

/-- The state built by the `AllowlistService` constructor. -/
def mkAllowlistService (caCertificate : String) : AllowlistState :=
  { caCertificate := caCertificate, catalog := none,
    templateHashMap := [], expiresAt := none }

/-- JavaScript `Map.prototype.set`: update in place if the key exists,
else append. -/
def mapSet (m : List (String × String)) (k v : String) : List (String × String) :=
  match m with
  | [] => [(k, v)]
  | (k', v') :: rest => if k' = k then (k, v) :: rest else (k', v') :: mapSet rest k v

/-- JavaScript `Map.prototype.has`. -/
def mapHas (m : List (String × String)) (k : String) : Bool :=
  m.any (fun p => p.1 = k)

/-- The `for (const [toolId, hash] of Object.entries(catalog.queries))`
loop of `updateCatalog`: build the reverse `hash → toolId` map. -/
def buildHashMap (queries : List (String × String)) : List (String × String) :=
  queries.foldl (fun m p => mapSet m p.2 p.1) []

/-! ## Canonical serialization (sortObjectKeys + JSON.stringify,
allowlist.service.ts 164-199) -/

/-- Hex digit for JSON `\u00XX` escapes of control characters. -/
def hexDigit (n : Nat) : Char :=
  if n < 10 then Char.ofNat ('0'.toNat + n) else Char.ofNat ('a'.toNat + (n - 10))

/-- `JSON.stringify` escaping of one character. -/
def jsonEscapeChar (c : Char) : List Char :=
  if c = '"' then ['\\', '"']
  else if c = '\\' then ['\\', '\\']
  else if c = '\x08' then ['\\', 'b']
  else if c = '\t' then ['\\', 't']
  else if c = '\n' then ['\\', 'n']
  else if c = '\x0c' then ['\\', 'f']
  else if c = '\r' then ['\\', 'r']
  else if c.toNat < 0x20 then
    ['\\', 'u', '0', '0', hexDigit (c.toNat / 16), hexDigit (c.toNat % 16)]
  else [c]

/-- A JSON string literal, `JSON.stringify` style. -/
def jsonString (s : String) : String :=
  "\"" ++ String.mk (s.data.flatMap jsonEscapeChar) ++ "\""

/-- Insert an entry into a key-sorted entry list (`Object.keys(obj).sort()`
applied by `sortObjectKeys`; object keys are distinct). -/
def insertByKey (p : String × String) : List (String × String) → List (String × String)
  | [] => [p]
  | q :: qs => if q.1 < p.1 then q :: insertByKey p qs else p :: q :: qs

/-- Key-sort the entries of the `queries` object. -/
def sortQueriesByKey (qs : List (String × String)) : List (String × String) :=
  qs.foldl (fun acc p => insertByKey p acc) []

/-- The canonical content that was signed: `sortObjectKeys` over
`{expires_at, generated_at, queries, version}` (top-level keys already in
sorted order) followed by `JSON.stringify` (no inserted whitespace). -/
def canonicalCatalogJson (c : QueryCatalog) : String :=
  "\x7b\"expires_at\":" ++ jsonString c.expires_at ++
  ",\"generated_at\":" ++ jsonString c.generated_at ++
  ",\"queries\":\x7b" ++
  String.intercalate ","
    ((sortQueriesByKey c.queries).map (fun p => jsonString p.1 ++ ":" ++ jsonString p.2)) ++
  "\x7d,\"version\":" ++ toString c.version ++ "\x7d"

/-- `AllowlistService.verifySignature`: no CA certificate means failure;
otherwise the runtime's SHA-256/RSA check (`cryptoVerify`, receiving the
canonical content and the base64 signature) decides.  The runtime check
never throws in this model, so the catch-all `return false` arm of the
source has no separate translation. -/
def verifySignature (cryptoVerify : String → String → Bool)
    (st : AllowlistState) (catalog : QueryCatalog) : Bool :=
  if st.caCertificate = "" then false
  else cryptoVerify (canonicalCatalogJson catalog) catalog.signature

/-! ## updateCatalog / status / clearCatalog (allowlist.service.ts 49-93,
254-278) -/

/-- `AllowlistService.updateCatalog`, threading the service state
explicitly: the result is the state after the call together with the
thrown error, if any.  The signature check precedes every mutation, so on
failure the input state is returned untouched.  `dateMs` is
`new Date(iso).getTime()`. -/
def updateCatalog (cryptoVerify : String → String → Bool) (dateMs : String → Int)
    (st : AllowlistState) (catalog : QueryCatalog) :
    AllowlistState × Option AllowlistValidationError :=
  if !verifySignature cryptoVerify st catalog then
    (st, some { message := "Catalog signature verification failed - possible tampering",
                code := .SIGNATURE_INVALID })
  else
    ({ st with
        catalog := some catalog,
        expiresAt := some (dateMs catalog.expires_at),
        templateHashMap := buildHashMap catalog.queries }, none)

/-- `AllowlistService.hasCatalog`. -/
def hasCatalog (st : AllowlistState) : Bool :=
  st.catalog.isSome

/-- `AllowlistService.isCatalogExpired` at wall-clock instant `now`
(epoch ms): no expiry recorded means expired. -/
def isCatalogExpired (st : AllowlistState) (now : Int) : Bool :=
  match st.expiresAt with
  | none => true
  | some e => now > e

/-- `AllowlistService.getTimeUntilExpiration` at instant `now`:
`Math.max(0, Math.floor(remaining / 1000))` in whole seconds. -/
def getTimeUntilExpiration (st : AllowlistState) (now : Int) : Int :=
  match st.expiresAt with
  | none => 0
  | some e => max 0 ((e - now).fdiv 1000)

/-- The record returned by `AllowlistService.getStatus`. -/
structure AllowlistStatus where
  hasCatalog : Bool
  expired : Bool
  queryCount : Nat
  expiresAt : Option Int
  secondsUntilExpiration : Int
deriving DecidableEq, Repr

/-- `AllowlistService.getStatus` at instant `now`. -/
def getStatus (st : AllowlistState) (now : Int) : AllowlistStatus :=
  { hasCatalog := hasCatalog st,
    expired := isCatalogExpired st now,
    queryCount := st.templateHashMap.length,
    expiresAt := st.expiresAt,
    secondsUntilExpiration := getTimeUntilExpiration st now }

/-- `AllowlistService.clearCatalog`. -/
def clearCatalog (st : AllowlistState) : AllowlistState :=
  { st with catalog := none, templateHashMap := [], expiresAt := none }

/-- `AllowlistService.validateTemplate` at instant `now`: `none` is
success, `some e` is the thrown `AllowlistValidationError`. -/
def validateTemplate (sha : String → String) (st : AllowlistState) (now : Int)
    (template : String) : Option AllowlistValidationError :=
  if !hasCatalog st then
    some { message := "Query catalog not yet received from server",
           code := .CATALOG_MISSING }
  else if isCatalogExpired st now then
    some { message := "Query catalog has expired - waiting for refresh",
           code := .CATALOG_EXPIRED }
  else if !mapHas st.templateHashMap (hashTemplate sha template) then
    some { message := "Template not in approved catalog - execution blocked",
           code := .TEMPLATE_NOT_ALLOWED }
  else
    none

/-! ## sql.execute handling (websocket.service.ts 368-461) -/

/-- `SqlExecutePayload` (types/messages.ts): optional template with params
and toolId, or a legacy raw query. -/
structure SqlExecutePayload where
  template : Option String
  params : Option (List (String × String))
  toolId : Option String
  query : Option String
  timeout : Option Nat
deriving DecidableEq, Repr

/-- The result contract of a database driver `execute` call. -/
structure DbQueryResult where
  columns : List String
  rows : List (List String)
  rowCount : Nat
  duration : Int
deriving DecidableEq, Repr

/-- The payload `handleSqlExecute` answers with. -/
structure SqlExecuteResult where
  columns : List String
  rows : List (List String)
  rowCount : Nat
  duration : Int
  error : Option String
deriving DecidableEq, Repr

/-- `WebSocketService.handleSqlExecute`.  `exec` is
`this.sqlService.execute` (an `Except.error` is a thrown/rejected call,
caught by the surrounding try); `now` is the wall clock used for catalog
expiry, `elapsed` stands for the `Date.now() - startTime` duration written
into the rejection results.  JavaScript truthiness of
`payload.template` / `payload.query` makes an absent and an empty string
equivalent. -/
def handleSqlExecute (sha : String → String)
    (exec : String → Except String DbQueryResult)
    (st : AllowlistState) (now elapsed : Int)
    (payload : SqlExecutePayload) : SqlExecuteResult :=
  let runQuery : String → SqlExecuteResult := fun q =>
    match exec q with
    | .ok r =>
      { columns := r.columns, rows := r.rows, rowCount := r.rowCount,
        duration := r.duration, error := none }
    | .error msg =>
      { columns := [], rows := [], rowCount := 0, duration := elapsed,
        error := some msg }
  if payload.template.getD "" != "" then
    let tmpl := payload.template.getD ""
    if !hasCatalog st then
      { columns := [], rows := [], rowCount := 0, duration := elapsed,
        error := some "Security: Query catalog not yet received from server" }
    else if isCatalogExpired st now then
      { columns := [], rows := [], rowCount := 0, duration := elapsed,
        error := some "Security: Query catalog has expired - waiting for refresh" }
    else
      match validateTemplate sha st now tmpl with
      | some e =>
        { columns := [], rows := [], rowCount := 0, duration := elapsed,
          error := some ("Security: " ++ e.message) }
      | none => runQuery (substituteParams tmpl (payload.params.getD []))
  else if payload.query.getD "" != "" then
    if hasCatalog st then
      { columns := [], rows := [], rowCount := 0, duration := elapsed,
        error := some "Security: Direct queries not allowed - template required" }
    else
      runQuery (payload.query.getD "")
  else
    { columns := [], rows := [], rowCount := 0, duration := elapsed,
      error := some "No query or template provided" }

/-! ## Inbound request routing (websocket.service.ts 188-269, 533-542) -/

/-- The `type` field of a protocol envelope. -/
inductive MessageType where
  | request
  | response
  | event
deriving DecidableEq, Repr

/-- A protocol envelope; the payload type varies with the direction. -/
structure Message (α : Type) where
  id : String
  type : MessageType
  action : String
  payload : α
  timestamp : Int
deriving DecidableEq, Repr

/-- Response payloads: a sql.execute result, an opaque payload produced by
a collaborating service (file service, sql test), or a bare `error`
object. -/
inductive RespPayload where
  | sqlResult (r : SqlExecuteResult)
  | collab (data : String)
  | errorOnly (error : String)
deriving DecidableEq, Repr

/-- `WebSocketService.sendResponse`: one response envelope with the
request's id and the request's action suffixed `.response`. -/
def sendResponse (requestId : String) (action : String) (payload : RespPayload)
    (now : Int) : Message RespPayload :=
  { id := requestId, type := .response, action := action ++ ".response",
    payload := payload, timestamp := now }

/-- The `type === 'request'` arm of `WebSocketService.handleMessage`: the
switch on the action inside a try/catch, followed by exactly one
`sendResponse`.  The collaborator handlers (`sql.testConnection` and the
file actions) are oracles that either return a payload or throw; the
result is the list of envelopes sent. -/
def handleRequestMessage (sha : String → String)
    (exec : String → Except String DbQueryResult)
    (st : AllowlistState) (projectPath : Option String)
    (hTestConnection hFileRead hFileList hFileSearch hScanStructure :
      Except String RespPayload)
    (now elapsed : Int) (msg : Message SqlExecutePayload) :
    List (Message RespPayload) :=
  let body : Except String RespPayload :=
    if msg.action = "sql.execute" then
      .ok (.sqlResult (handleSqlExecute sha exec st now elapsed msg.payload))
    else if msg.action = "sql.testConnection" then hTestConnection
    else if msg.action = "file.read" then hFileRead
    else if msg.action = "file.list" then hFileList
    else if msg.action = "file.search" then hFileSearch
    else if msg.action = "file.getStructure" then
      if projectPath.getD "" = "" then
        .ok (.errorOnly "Project path not configured on agent")
      else hScanStructure
    else
      .ok (.errorOnly ("Unknown action: " ++ msg.action))
  match body with
  | .ok r => [sendResponse msg.id msg.action r now]
  | .error e => [sendResponse msg.id msg.action (.errorOnly e) now]

/-! ## Close handling and reconnect backoff (websocket.service.ts 15-16,
76-84, 95-111, 661-669) -/

def RECONNECT_INITIAL_DELAY : Nat := 1000

def RECONNECT_MAX_DELAY : Nat := 30000

/-- The connection-recovery fields of `WebSocketService`. -/
structure WsClientState where
  reconnectAttempts : Nat
  isConnected : Bool
deriving DecidableEq, Repr

/-- The delay scheduled by one `scheduleReconnect` call, plus the state
after it. -/
structure ScheduleResult where
  delay : Nat
  state : WsClientState
deriving DecidableEq, Repr

/-- `WebSocketService.scheduleReconnect`:
`min(initial * 2 ** attempts, max)`, then increment the counter. -/
def scheduleReconnect (st : WsClientState) : ScheduleResult :=
  { delay := min (RECONNECT_INITIAL_DELAY * 2 ^ st.reconnectAttempts) RECONNECT_MAX_DELAY,
    state := { st with reconnectAttempts := st.reconnectAttempts + 1 } }

/-- The state change and the reconnect timer (if any) produced by one
`close` event. -/
structure CloseOutcome where
  state : WsClientState
  scheduledReconnectDelay : Option Nat
deriving DecidableEq, Repr

/-- The `socket.on('close', ...)` handler: mark disconnected, then
schedule a reconnect unless the close code is 4001. -/
def handleClose (st : WsClientState) (code : Nat) : CloseOutcome :=
  let st1 : WsClientState := { st with isConnected := false }
  if code != 4001 then
    let r := scheduleReconnect st1
    { state := r.state, scheduledReconnectDelay := some r.delay }
  else
    { state := st1, scheduledReconnectDelay := none }

/-- The `socket.on('open', ...)` handler restricted to the recovery
fields: mark connected and reset the attempt counter. -/
def handleOpen (st : WsClientState) : WsClientState :=
  { st with isConnected := true, reconnectAttempts := 0 }

/-- The reconnect delays produced by a run of consecutive close events. -/
def delaysAfterCloses (st : WsClientState) (codes : List Nat) :
    List (Option Nat) :=
  (codes.foldl
    (fun (acc : List (Option Nat) × WsClientState) code =>
      let o := handleClose acc.2 code
      (acc.1 ++ [o.scheduledReconnectDelay], o.state))
    ([], st)).1

/-! ## Agent-level event trace for the allowlist state -/

/-- The inbound events that can touch the catalog state: an
`allowlist.sync` (or `allowlist.refresh.response`) carrying a catalog, and
a `sql.execute` request. -/
inductive AgentEvent where
  | catalogSync (catalog : QueryCatalog)
  | sqlExecuteReq (payload : SqlExecutePayload)

/-- How one event transforms the allowlist state:
`handleAllowlistSync` runs `updateCatalog` and swallows a validation
error (the old catalog stays authoritative); `sql.execute` never mutates
the catalog. -/
def agentStep (cryptoVerify : String → String → Bool) (dateMs : String → Int)
    (st : AllowlistState) : AgentEvent → AllowlistState
  | .catalogSync c => (updateCatalog cryptoVerify dateMs st c).1
  | .sqlExecuteReq _ => st

/-! ## SqlService.configure and the /sql/configure route
(sql.service.ts 7-46, routes part_009 125-143) -/

/-- `DbType` (types/messages.ts line 33). -/
inductive DbType where
  | mssql
  | postgres
deriving DecidableEq, Repr

/-- The backend-specific `options` object of `SqlConfig`. -/
inductive SqlOptions where
  | mssqlOptions (encrypt trustServerCertificate : Bool)
  | postgresOptions (sslMode : String)
deriving DecidableEq, Repr

/-- `SqlConfig` (types/messages.ts lines 35-49). -/
structure SqlConfig where
  dbType : Option DbType
  server : String
  port : Nat
  user : String
  password : String
  database : Option String
  options : Option SqlOptions
deriving DecidableEq, Repr

/-- The two driver variants `SqlService.createDriver` can instantiate. -/
inductive DriverInstance where
  | mssqlDriver
  | postgresDriver
deriving DecidableEq, Repr

/-- `SqlService.createDriver` (the `DbType` union is closed, so the
`default: throw` arm of the switch is unreachable). -/
def createDriver : DbType → DriverInstance
  | .mssql => .mssqlDriver
  | .postgres => .postgresDriver

/-- The mutable fields of `SqlService`. -/
structure SqlServiceState where
  driver : Option DriverInstance
  config : Option SqlConfig
  lastTestSuccess : Bool
deriving DecidableEq, Repr

/-- The state after `SqlService.configure`, plus whether `disconnect()`
was invoked during the call. -/
structure ConfigureResult where
  state : SqlServiceState
  didDisconnect : Bool
deriving DecidableEq, Repr

/-- `SqlService.configure`: default the backend to mssql, diff the six
connection-relevant fields against the current configuration, and keep the
live driver when nothing changed; otherwise reset the test flag,
disconnect, and instantiate the driver for the (new) backend. -/
def configure (st : SqlServiceState) (config0 : SqlConfig) : ConfigureResult :=
  let config : SqlConfig := { config0 with dbType := some (config0.dbType.getD .mssql) }
  let connectionChanged : Bool :=
    match st.config with
    | none => true
    | some old =>
      old.dbType != config.dbType || old.server != config.server ||
      old.port != config.port || old.user != config.user ||
      old.password != config.password || old.database != config.database
  if !connectionChanged && st.driver.isSome then
    { state := { st with config := some config }, didDisconnect := false }
  else
    { state :=
        { driver := some (createDriver (config.dbType.getD .mssql)),
          config := some config, lastTestSuccess := false },
      didDisconnect := true }

/-- The backend-specific default port of the configuration routes:
`dbType === 'postgres' ? 5432 : 1433`. -/
def defaultPortFor : DbType → Nat
  | .postgres => 5432
  | .mssql => 1433

/-- The construction of `sqlConfig` in the `POST /sql/configure` route:
default the backend to mssql, apply the backend default port whenever
`parseInt(req.body.port, 10)` is falsy (absent, non-numeric or zero), and
build the backend-specific options. -/
def routeSqlConfigure (bodyDbType : Option DbType) (bodyPort : Option Nat)
    (server user password : String) (database : Option String)
    (encrypt trustServerCertificate : Option Bool) (sslMode : Option String) :
    SqlConfig :=
  let dbType := bodyDbType.getD .mssql
  let defaultPort := defaultPortFor dbType
  { dbType := some dbType,
    server := server,
    port := match bodyPort with
            | some p => if p = 0 then defaultPort else p
            | none => defaultPort,
    user := user,
    password := password,
    database := database,
    options := some (match dbType with
      | .postgres => .postgresOptions (sslMode.getD "disable")
      | .mssql => .mssqlOptions (encrypt.getD true) (trustServerCertificate.getD true)) }

/-! ## Theorems -/

/-- Claim C1: for every catalog whose signature does not verify against
the provisioned CA certificate over the canonical serialization of
`expires_at, generated_at, queries, version` (either no CA certificate is
provisioned or the runtime check rejects the canonical content),
`updateCatalog` raises the error with code `SIGNATURE_INVALID` and
returns the state unchanged: the stored catalog, the hash-to-toolId map
and the expiry timestamp are exactly those of the input state. -/
theorem C1_updateCatalog_fail_stop (cryptoVerify : String → String → Bool)
    (dateMs : String → Int) (st : AllowlistState) (c : QueryCatalog)
    (h : st.caCertificate = "" ∨
         cryptoVerify (canonicalCatalogJson c) c.signature = false) :
    updateCatalog cryptoVerify dateMs st c =
      (st, some { message := "Catalog signature verification failed - possible tampering",
                  code := .SIGNATURE_INVALID }) := by
  have hv : verifySignature cryptoVerify st c = false := by
    unfold verifySignature
    rcases h with h | h
    · simp [h]
    · by_cases hca : st.caCertificate = "" <;> simp [hca, h]
  unfold updateCatalog
  simp [hv]

/-- Witness for C1 at a concrete state, catalog and rejecting verifier. -/
theorem C1_updateCatalog_fail_stop_witness :
    updateCatalog (fun _ _ => false) (fun _ => 0) (mkAllowlistService "CERT")
      { version := 1, generated_at := "2025-01-01T00:00:00Z",
        expires_at := "2025-01-01T01:00:00Z",
        queries := [("toolA", "sha256:aa")], signature := "c2ln" } =
    (mkAllowlistService "CERT",
     some { message := "Catalog signature verification failed - possible tampering",
            code := .SIGNATURE_INVALID }) :=
  C1_updateCatalog_fail_stop _ _ _ _ (Or.inr rfl)

/-- Claim C7: a close with code 4001 schedules no reconnect (the close
handler produces no reconnect timer, so the client makes no further
connection attempt), while a close with any other code schedules one. -/
theorem C7_close_4001_terminal (st : WsClientState) :
    (handleClose st 4001).scheduledReconnectDelay = none ∧
    ∀ code : Nat, code ≠ 4001 →
      ((handleClose st code).scheduledReconnectDelay).isSome = true := by
  constructor
  · simp [handleClose]
  · intro code hc
    simp [handleClose, hc]

/-- Witness for C7 at a concrete state and close codes 4001 and 1006. -/
theorem C7_close_4001_terminal_witness :
    (handleClose { reconnectAttempts := 3, isConnected := true } 4001).scheduledReconnectDelay
      = none ∧
    ((handleClose { reconnectAttempts := 3, isConnected := true } 1006).scheduledReconnectDelay).isSome
      = true :=
  ⟨(C7_close_4001_terminal _).1,
   (C7_close_4001_terminal _).2 1006 (by decide)⟩

/-- Claim C8: the reconnect delay for the n-th consecutive failed attempt
(counter reset to 0 on every successful open) is
`min(1000 * 2 ^ n, 30000)`: the opening handler resets the counter, each
non-4001 close schedules exactly that delay and increments the counter,
the first seven delays from a fresh client are 1000, 2000, 4000, 8000,
16000, 30000, 30000, and no scheduled delay ever exceeds 30000. -/
theorem C8_reconnect_backoff :
    (∀ st : WsClientState, (handleOpen st).reconnectAttempts = 0) ∧
    (∀ (st : WsClientState) (code : Nat), code ≠ 4001 →
      (handleClose st code).scheduledReconnectDelay =
        some (min (1000 * 2 ^ st.reconnectAttempts) 30000) ∧
      (handleClose st code).state.reconnectAttempts = st.reconnectAttempts + 1) ∧
    delaysAfterCloses { reconnectAttempts := 0, isConnected := true }
        [1006, 1006, 1006, 1006, 1006, 1006, 1006] =
      [some 1000, some 2000, some 4000, some 8000, some 16000, some 30000, some 30000] ∧
    (∀ (st : WsClientState) (code : Nat) (d : Nat),
      (handleClose st code).scheduledReconnectDelay = some d → d ≤ 30000) := by
  refine ⟨fun st => rfl, fun st code hc => ?_, by decide, fun st code d hd => ?_⟩
  · simp [handleClose, hc, scheduleReconnect, RECONNECT_INITIAL_DELAY, RECONNECT_MAX_DELAY]
  · unfold handleClose at hd
    by_cases hc : code = 4001
    · simp [hc] at hd
    · simp [hc, scheduleReconnect, RECONNECT_MAX_DELAY] at hd
      omega

/-- Witness for C8 at a concrete state and close code. -/
theorem C8_reconnect_backoff_witness :
    (handleClose { reconnectAttempts := 5, isConnected := true } 1006).scheduledReconnectDelay
      = some 30000 ∧
    (handleOpen { reconnectAttempts := 7, isConnected := false }).reconnectAttempts = 0 :=
  ⟨((C8_reconnect_backoff.2.1 _ 1006 (by decide)).1).trans (by decide),
   C8_reconnect_backoff.1 _⟩

/-- Claim C10: with no catalog accepted (the freshly constructed service)
or after `clearCatalog`, `isCatalogExpired` reports true and
`getTimeUntilExpiration` reports 0; in every state
`getTimeUntilExpiration` is non-negative, `getStatus` reports exactly
that value as `secondsUntilExpiration` (hence never a negative one), and
a state with no expiry timestamp is always reported expired. -/
theorem C10_expiration_invariants :
    (∀ (ca : String) (now : Int),
      isCatalogExpired (mkAllowlistService ca) now = true ∧
      getTimeUntilExpiration (mkAllowlistService ca) now = 0) ∧
    (∀ (st : AllowlistState) (now : Int),
      isCatalogExpired (clearCatalog st) now = true ∧
      getTimeUntilExpiration (clearCatalog st) now = 0) ∧
    (∀ (st : AllowlistState) (now : Int), 0 ≤ getTimeUntilExpiration st now) ∧
    (∀ (st : AllowlistState) (now : Int),
      (getStatus st now).secondsUntilExpiration = getTimeUntilExpiration st now ∧
      0 ≤ (getStatus st now).secondsUntilExpiration) ∧
    (∀ (st : AllowlistState) (now : Int),
      st.expiresAt = none → (getStatus st now).expired = true) := by
  have hnonneg : ∀ (st : AllowlistState) (now : Int), 0 ≤ getTimeUntilExpiration st now := by
    intro st now
    unfold getTimeUntilExpiration
    cases st.expiresAt with
    | none => exact le_refl 0
    | some e => exact le_max_left 0 _
  refine ⟨fun ca now => ⟨rfl, rfl⟩, fun st now => ⟨rfl, rfl⟩, hnonneg,
    fun st now => ⟨rfl, hnonneg st now⟩, fun st now h => ?_⟩
  simp [getStatus, isCatalogExpired, h]

/-- Witness for C10 at the fresh service and a cleared state. -/
theorem C10_expiration_invariants_witness :
    isCatalogExpired (mkAllowlistService "") 0 = true ∧
    getTimeUntilExpiration (mkAllowlistService "") 0 = 0 ∧
    (getStatus (clearCatalog (mkAllowlistService "CERT")) 7).expired = true :=
  ⟨(C10_expiration_invariants.1 "" 0).1,
   (C10_expiration_invariants.1 "" 0).2,
   C10_expiration_invariants.2.2.2.2 (clearCatalog (mkAllowlistService "CERT")) 7 rfl⟩

/-- Claim C9: `configure` diffs backend type, host, port, user, password
and database against the current configuration and keeps the live driver
(no disconnect, no new instance) when nothing changed; the configuration
route applies the backend-specific default port (1433 for mssql, 5432 for
postgres) whenever the caller supplies none; and switching the backend
from mssql to postgres with an unspecified port yields port 5432 and a
driver instance of the postgres variant. -/
theorem C9_configure_diff_and_defaults :
    (∀ (st : SqlServiceState) (old cfg : SqlConfig) (d : DriverInstance),
      st.config = some old → st.driver = some d →
      old.dbType = some (cfg.dbType.getD .mssql) → old.server = cfg.server →
      old.port = cfg.port → old.user = cfg.user → old.password = cfg.password →
      old.database = cfg.database →
      configure st cfg =
        { state := { st with config := some { cfg with dbType := some (cfg.dbType.getD .mssql) } },
          didDisconnect := false }) ∧
    (∀ (dbt : DbType) server user password database encrypt trust ssl,
      (routeSqlConfigure (some dbt) none server user password database encrypt trust ssl).port
        = defaultPortFor dbt) ∧
    (∀ server user password database,
      (routeSqlConfigure (some .postgres) none server user password database none none none).port
        = 5432) ∧
    (∀ (st : SqlServiceState) (old : SqlConfig) server user password database,
      st.config = some old → old.dbType = some DbType.mssql →
      (configure st
        (routeSqlConfigure (some .postgres) none server user password database none none none)).state.driver
        = some DriverInstance.postgresDriver) := by
  refine ⟨fun st old cfg d hcfg hdrv h1 h2 h3 h4 h5 h6 => ?_,
    fun dbt server user password database encrypt trust ssl => rfl,
    fun server user password database => rfl,
    fun st old server user password database hcfg hdb => ?_⟩
  · unfold configure
    rw [hcfg]
    simp [h1, h2, h3, h4, h5, h6, hdrv]
  · unfold configure
    rw [hcfg]
    simp [routeSqlConfigure, hdb, defaultPortFor, createDriver]

/-- Witness for C9: an unchanged reconfiguration keeps the mssql driver,
and the mssql-to-postgres switch with no port yields 5432 and the
postgres driver. -/
theorem C9_configure_diff_and_defaults_witness :
    configure
      { driver := some .mssqlDriver,
        config := some { dbType := some .mssql, server := "db", port := 1433,
                         user := "u", password := "pw", database := some "d",
                         options := none },
        lastTestSuccess := true }
      { dbType := some .mssql, server := "db", port := 1433, user := "u",
        password := "pw", database := some "d", options := none } =
      { state :=
          { driver := some .mssqlDriver,
            config := some { dbType := some .mssql, server := "db", port := 1433,
                             user := "u", password := "pw", database := some "d",
                             options := none },
            lastTestSuccess := true },
        didDisconnect := false } ∧
    (routeSqlConfigure (some .postgres) none "db" "u" "pw" (some "d") none none none).port
      = 5432 ∧
    (configure
      { driver := some .mssqlDriver,
        config := some { dbType := some .mssql, server := "db", port := 1433,
                         user := "u", password := "pw", database := some "d",
                         options := none },
        lastTestSuccess := true }
      (routeSqlConfigure (some .postgres) none "db" "u" "pw" (some "d") none none none)).state.driver
      = some DriverInstance.postgresDriver :=
  ⟨C9_configure_diff_and_defaults.1 _ _ _ _ rfl rfl rfl rfl rfl rfl rfl rfl,
   C9_configure_diff_and_defaults.2.2.1 "db" "u" "pw" (some "d"),
   C9_configure_diff_and_defaults.2.2.2 _ _ "db" "u" "pw" (some "d") rfl rfl⟩

/-- Once the allowlist state holds a catalog, no agent event removes it
(`updateCatalog` either replaces it or fails leaving it in place, and
`sql.execute` never touches it). -/
theorem hasCatalog_agentStep (cryptoVerify : String → String → Bool)
    (dateMs : String → Int) (st : AllowlistState) (ev : AgentEvent)
    (h : hasCatalog st = true) :
    hasCatalog (agentStep cryptoVerify dateMs st ev) = true := by
  cases ev with
  | sqlExecuteReq p => exact h
  | catalogSync c =>
    unfold agentStep updateCatalog
    by_cases hv : verifySignature cryptoVerify st c <;> simp [hv, hasCatalog, h]
    exact h

/-- Claim C3: a `sql.execute` request carrying a legacy raw query and no
template executes the query exactly while no catalog is held; as soon as
a catalog exists the request is answered with a structured error result
instead of being executed, and across any further sequence of agent
events a once-received catalog never goes away, so every later raw-query
request stays rejected. -/
theorem C3_raw_query_gating :
    (∀ (sha : String → String) (exec : String → Except String DbQueryResult)
       (st : AllowlistState) (now elapsed : Int) (p : SqlExecutePayload) (q : String),
      p.template.getD "" = "" → p.query = some q → q ≠ "" →
      (hasCatalog st = true →
        handleSqlExecute sha exec st now elapsed p =
          { columns := [], rows := [], rowCount := 0, duration := elapsed,
            error := some "Security: Direct queries not allowed - template required" }) ∧
      (hasCatalog st = false →
        handleSqlExecute sha exec st now elapsed p =
          match exec q with
          | .ok r => { columns := r.columns, rows := r.rows, rowCount := r.rowCount,
                       duration := r.duration, error := none }
          | .error msg => { columns := [], rows := [], rowCount := 0,
                            duration := elapsed, error := some msg })) ∧
    (∀ (cryptoVerify : String → String → Bool) (dateMs : String → Int)
       (st : AllowlistState) (evs : List AgentEvent),
      hasCatalog st = true →
      hasCatalog (evs.foldl (agentStep cryptoVerify dateMs) st) = true) := by
  constructor
  · intro sha exec st now elapsed p q htmpl hq hnq
    have hq1 : p.query.getD "" = q := by rw [hq]; rfl
    constructor
    · intro hcat
      unfold handleSqlExecute
      simp [htmpl, hq1, hnq, hcat]
    · intro hcat
      unfold handleSqlExecute
      simp [htmpl, hq1, hnq, hcat]
  · intro cryptoVerify dateMs st evs
    induction evs generalizing st with
    | nil => exact fun h => h
    | cons ev rest ih =>
      intro h
      exact ih _ (hasCatalog_agentStep cryptoVerify dateMs st ev h)

/-- Witness for C3: with a stored catalog a raw query is rejected; with
the fresh state it is executed. -/
theorem C3_raw_query_gating_witness :
    handleSqlExecute (fun s => s) (fun _ => .ok { columns := ["a"], rows := [["1"]], rowCount := 1, duration := 3 })
      { caCertificate := "CERT",
        catalog := some { version := 1, generated_at := "g", expires_at := "e",
                          queries := [("toolA", "sha256:aa")], signature := "s" },
        templateHashMap := [("sha256:aa", "toolA")], expiresAt := some 1000 }
      0 5
      { template := none, params := none, toolId := none,
        query := some "SELECT 1", timeout := none } =
      { columns := [], rows := [], rowCount := 0, duration := 5,
        error := some "Security: Direct queries not allowed - template required" } ∧
    handleSqlExecute (fun s => s) (fun _ => .ok { columns := ["a"], rows := [["1"]], rowCount := 1, duration := 3 })
      (mkAllowlistService "CERT") 0 5
      { template := none, params := none, toolId := none,
        query := some "SELECT 1", timeout := none } =
      { columns := ["a"], rows := [["1"]], rowCount := 1, duration := 3,
        error := none } :=
  ⟨((C3_raw_query_gating.1 (fun s => s)
      (fun _ => .ok { columns := ["a"], rows := [["1"]], rowCount := 1, duration := 3 })
      { caCertificate := "CERT",
        catalog := some { version := 1, generated_at := "g", expires_at := "e",
                          queries := [("toolA", "sha256:aa")], signature := "s" },
        templateHashMap := [("sha256:aa", "toolA")], expiresAt := some 1000 }
      0 5
      { template := none, params := none, toolId := none,
        query := some "SELECT 1", timeout := none }
      "SELECT 1" rfl rfl (by decide)).1) rfl,
   ((C3_raw_query_gating.1 (fun s => s)
      (fun _ => .ok { columns := ["a"], rows := [["1"]], rowCount := 1, duration := 3 })
      (mkAllowlistService "CERT") 0 5
      { template := none, params := none, toolId := none,
        query := some "SELECT 1", timeout := none }
      "SELECT 1" rfl rfl (by decide)).2) rfl⟩

/-- Every error result produced by `handleSqlExecute` carries empty
columns, empty rows and a zero row count. -/
theorem handleSqlExecute_error_shape (sha : String → String)
    (exec : String → Except String DbQueryResult)
    (st : AllowlistState) (now elapsed : Int) (p : SqlExecutePayload)
    (h : ((handleSqlExecute sha exec st now elapsed p).error).isSome = true) :
    (handleSqlExecute sha exec st now elapsed p).columns = [] ∧
    (handleSqlExecute sha exec st now elapsed p).rows = [] ∧
    (handleSqlExecute sha exec st now elapsed p).rowCount = 0 := by
  unfold handleSqlExecute at h ⊢
  repeat' split
  all_goals try simp_all
  all_goals
    try (rcases hval : validateTemplate sha st now (p.template.getD "") with _ | e <;>
      simp only [hval] at h ⊢)
  all_goals
    try (rcases hex : exec (substituteParams (p.template.getD "") (p.params.getD [])) with r | m <;>
      simp only [hex] at h ⊢)
  all_goals
    try (rcases hex2 : exec (p.query.getD "") with r | m <;>
      simp only [hex2] at h ⊢)
  all_goals simp_all

/-- Claim C6: for every inbound envelope of type `request` (the six known
actions and the unknown default alike) the handler emits exactly one
response envelope whose id is the request id and whose action is the
request action suffixed `.response`; a throwing handler is caught and
reported as an `error` field on the response payload (for `sql.execute`,
with empty rows, empty columns and a zero row count), and no exception
reaches the connection layer (the routing function is total, every
branch answering with the same single envelope shape). -/
theorem C6_one_response_per_request (sha : String → String)
    (exec : String → Except String DbQueryResult)
    (st : AllowlistState) (projectPath : Option String)
    (hTestConnection hFileRead hFileList hFileSearch hScanStructure :
      Except String RespPayload)
    (now elapsed : Int) (msg : Message SqlExecutePayload)
    (htype : msg.type = MessageType.request) :
    (handleRequestMessage sha exec st projectPath hTestConnection hFileRead
        hFileList hFileSearch hScanStructure now elapsed msg).length = 1 ∧
    (∀ r ∈ handleRequestMessage sha exec st projectPath hTestConnection hFileRead
        hFileList hFileSearch hScanStructure now elapsed msg,
      r.id = msg.id ∧ r.type = MessageType.response ∧
      r.action = msg.action ++ ".response") ∧
    (∀ e : String,
      (msg.action = "sql.testConnection" → hTestConnection = .error e →
        handleRequestMessage sha exec st projectPath hTestConnection hFileRead
          hFileList hFileSearch hScanStructure now elapsed msg =
          [sendResponse msg.id msg.action (.errorOnly e) now]) ∧
      (msg.action = "file.read" → hFileRead = .error e →
        handleRequestMessage sha exec st projectPath hTestConnection hFileRead
          hFileList hFileSearch hScanStructure now elapsed msg =
          [sendResponse msg.id msg.action (.errorOnly e) now]) ∧
      (msg.action = "file.list" → hFileList = .error e →
        handleRequestMessage sha exec st projectPath hTestConnection hFileRead
          hFileList hFileSearch hScanStructure now elapsed msg =
          [sendResponse msg.id msg.action (.errorOnly e) now]) ∧
      (msg.action = "file.search" → hFileSearch = .error e →
        handleRequestMessage sha exec st projectPath hTestConnection hFileRead
          hFileList hFileSearch hScanStructure now elapsed msg =
          [sendResponse msg.id msg.action (.errorOnly e) now])) ∧
    (((handleSqlExecute sha exec st now elapsed msg.payload).error).isSome = true →
      (handleSqlExecute sha exec st now elapsed msg.payload).columns = [] ∧
      (handleSqlExecute sha exec st now elapsed msg.payload).rows = [] ∧
      (handleSqlExecute sha exec st now elapsed msg.payload).rowCount = 0) := by
  refine ⟨?_, ?_, ?_, handleSqlExecute_error_shape sha exec st now elapsed msg.payload⟩
  · unfold handleRequestMessage
    dsimp only []
    repeat' split
    all_goals rfl
  · unfold handleRequestMessage
    dsimp only []
    repeat' split
    all_goals
      intro r hr
      simp only [List.mem_singleton] at hr
      subst hr
      exact ⟨rfl, rfl, rfl⟩
  · intro e
    refine ⟨fun ha he => ?_, fun ha he => ?_, fun ha he => ?_, fun ha he => ?_⟩
    all_goals
      unfold handleRequestMessage
      simp [ha, he]

/-- Witness for C6: a `file.read` request whose handler throws is answered
by exactly the one response envelope carrying the error payload. -/
theorem C6_one_response_per_request_witness :
    handleRequestMessage (fun s => s)
      (fun _ => .ok { columns := [], rows := [], rowCount := 0, duration := 0 })
      (mkAllowlistService "") none
      (.ok (.collab "t")) (.error "boom") (.ok (.collab "l"))
      (.ok (.collab "s")) (.ok (.collab "g")) 12 0
      { id := "42", type := .request, action := "file.read",
        payload := { template := none, params := none, toolId := none,
                     query := none, timeout := none },
        timestamp := 11 } =
      [sendResponse "42" "file.read" (.errorOnly "boom") 12] :=
  ((C6_one_response_per_request (fun s => s)
      (fun _ => .ok { columns := [], rows := [], rowCount := 0, duration := 0 })
      (mkAllowlistService "") none
      (.ok (.collab "t")) (.error "boom") (.ok (.collab "l"))
      (.ok (.collab "s")) (.ok (.collab "g")) 12 0
      { id := "42", type := .request, action := "file.read",
        payload := { template := none, params := none, toolId := none,
                     query := none, timeout := none },
        timestamp := 11 } rfl).2.2.1 "boom").2.1 rfl rfl

theorem hasCloseDelim_append_space (l : List Char) :
    hasCloseDelim (l ++ [' ']) = hasCloseDelim l := by
  induction l using hasCloseDelim.induct with
  | case1 => decide
  | case2 tail => simp [hasCloseDelim]
  | case3 head cs hne ih =>
    by_cases hh : head = '*'
    · subst hh
      rcases cs with _ | ⟨c2, cs2⟩
      · decide
      · by_cases h2 : c2 = '/'
        · exact absurd (h2 ▸ rfl) (fun h => hne cs2 rfl h)
        · show hasCloseDelim ('*' :: c2 :: (cs2 ++ [' '])) = hasCloseDelim ('*' :: c2 :: cs2)
          rw [show hasCloseDelim ('*' :: c2 :: (cs2 ++ [' '])) =
                hasCloseDelim (c2 :: (cs2 ++ [' '])) from by
            simp [hasCloseDelim, h2],
              show hasCloseDelim ('*' :: c2 :: cs2) = hasCloseDelim (c2 :: cs2) from by
            simp [hasCloseDelim, h2]]
          exact ih
    · show hasCloseDelim (head :: (cs ++ [' '])) = hasCloseDelim (head :: cs)
      rw [show hasCloseDelim (head :: (cs ++ [' '])) = hasCloseDelim (cs ++ [' ']) from by
            simp [hasCloseDelim, hh],
          show hasCloseDelim (head :: cs) = hasCloseDelim cs from by
            simp [hasCloseDelim, hh]]
      exact ih

theorem stripLineCommentsAux_append_space (m : Bool) (l : List Char) :
    stripLineCommentsAux m (l ++ [' ']) = stripLineCommentsAux m l ∨
    stripLineCommentsAux m (l ++ [' ']) = stripLineCommentsAux m l ++ [' '] := by
  induction m, l using stripLineCommentsAux.induct with
  | case1 x =>
    cases x
    · right; decide
    · left; decide
  | case2 cs ih =>
    simp only [List.cons_append]
    rcases ih with h | h
    · left; simp [stripLineCommentsAux, h]
    · right; simp [stripLineCommentsAux, h]
  | case3 c cs hc ih =>
    simp only [List.cons_append]
    rcases ih with h | h
    · left; simp [stripLineCommentsAux, hc, h]
    · right; simp [stripLineCommentsAux, hc, h]
  | case4 cs ih =>
    simp only [List.cons_append]
    rcases ih with h | h
    · left; simp [stripLineCommentsAux, h]
    · right; simp [stripLineCommentsAux, h]
  | case5 c cs hne ih =>
    simp only [List.cons_append]
    by_cases hcdash : c = '-'
    · subst hcdash
      rcases cs with _ | ⟨c2, cs2⟩
      · right; decide
      · by_cases h2 : c2 = '-'
        · exact absurd (h2 ▸ rfl) (fun h => hne cs2 rfl h)
        · have e1 : stripLineCommentsAux false ('-' :: c2 :: (cs2 ++ [' '])) =
              '-' :: stripLineCommentsAux false (c2 :: (cs2 ++ [' '])) := by
            simp [stripLineCommentsAux, h2]
          have e2 : stripLineCommentsAux false ('-' :: c2 :: cs2) =
              '-' :: stripLineCommentsAux false (c2 :: cs2) := by
            simp [stripLineCommentsAux, h2]
          rcases ih with h | h
          all_goals simp only [List.cons_append] at h ⊢
          · left; rw [e1, e2, h]
          · right; rw [e1, e2, h]; rfl
    · rcases ih with h | h
      · left; simp [stripLineCommentsAux, hcdash, h]
      · right; simp [stripLineCommentsAux, hcdash, h]

theorem stripBlockCommentsAux_append_space (m : Bool) (l : List Char) :
    stripBlockCommentsAux m (l ++ [' ']) = stripBlockCommentsAux m l ∨
    stripBlockCommentsAux m (l ++ [' ']) = stripBlockCommentsAux m l ++ [' '] := by
  induction m, l using stripBlockCommentsAux.induct with
  | case1 x =>
    cases x
    · right; decide
    · left; decide
  | case2 cs ih =>
    simp only [List.cons_append]
    rcases ih with h | h
    · left; simp [stripBlockCommentsAux, h]
    · right; simp [stripBlockCommentsAux, h]
  | case3 head cs hne ih =>
    simp only [List.cons_append]
    by_cases hh : head = '*'
    · subst hh
      rcases cs with _ | ⟨c2, cs2⟩
      · left; decide
      · by_cases h2 : c2 = '/'
        · exact absurd (h2 ▸ rfl) (fun h => hne cs2 rfl h)
        · have e1 : stripBlockCommentsAux true ('*' :: c2 :: (cs2 ++ [' '])) =
              stripBlockCommentsAux true (c2 :: (cs2 ++ [' '])) := by
            simp [stripBlockCommentsAux, h2]
          have e2 : stripBlockCommentsAux true ('*' :: c2 :: cs2) =
              stripBlockCommentsAux true (c2 :: cs2) := by
            simp [stripBlockCommentsAux, h2]
          rcases ih with h | h
          all_goals simp only [List.cons_append] at h ⊢
          · left; rw [e1, e2, h]
          · right; rw [e1, e2, h]
    · have e1 : stripBlockCommentsAux true (head :: (cs ++ [' '])) =
          stripBlockCommentsAux true (cs ++ [' ']) := by
        simp [stripBlockCommentsAux, hh]
      have e2 : stripBlockCommentsAux true (head :: cs) =
          stripBlockCommentsAux true cs := by
        simp [stripBlockCommentsAux, hh]
      rcases ih with h | h
      · left; rw [e1, e2, h]
      · right; rw [e1, e2, h]
  | case4 cs hclose ih =>
    simp only [List.cons_append]
    have hc2 : hasCloseDelim (cs ++ [' ']) = true := by
      rw [hasCloseDelim_append_space]; exact hclose
    rcases ih with h | h
    · left; simp [stripBlockCommentsAux, hc2, hclose, h]
    · right; simp [stripBlockCommentsAux, hc2, hclose, h]
  | case5 cs hnclose =>
    simp only [List.cons_append]
    have hc2 : hasCloseDelim (cs ++ [' ']) = false := by
      rw [hasCloseDelim_append_space]; simpa using hnclose
    right
    simp [stripBlockCommentsAux, hc2, hnclose]
  | case6 c cs hne ih =>
    simp only [List.cons_append]
    by_cases hc : c = '/'
    · subst hc
      rcases cs with _ | ⟨c2, cs2⟩
      · right; decide
      · by_cases h2 : c2 = '*'
        · exact absurd (h2 ▸ rfl) (fun h => hne cs2 rfl h)
        · have e1 : stripBlockCommentsAux false ('/' :: c2 :: (cs2 ++ [' '])) =
              '/' :: stripBlockCommentsAux false (c2 :: (cs2 ++ [' '])) := by
            simp [stripBlockCommentsAux, h2]
          have e2 : stripBlockCommentsAux false ('/' :: c2 :: cs2) =
              '/' :: stripBlockCommentsAux false (c2 :: cs2) := by
            simp [stripBlockCommentsAux, h2]
          rcases ih with h | h
          all_goals simp only [List.cons_append] at h ⊢
          · left; rw [e1, e2, h]
          · right; rw [e1, e2, h]; rfl
    · have e1 : stripBlockCommentsAux false (c :: (cs ++ [' '])) =
          c :: stripBlockCommentsAux false (cs ++ [' ']) := by
        simp [stripBlockCommentsAux, hc]
      have e2 : stripBlockCommentsAux false (c :: cs) =
          c :: stripBlockCommentsAux false cs := by
        simp [stripBlockCommentsAux, hc]
      rcases ih with h | h
      · left; rw [e1, e2, h]
      · right; rw [e1, e2, h]; rfl

theorem wordsAux_append_space (l : List Char) :
    ∀ cur, wordsAux cur (l ++ [' ']) = wordsAux cur l := by
  have hsp : isJsWhitespace ' ' = true := by decide
  induction l with
  | nil =>
    intro cur
    show wordsAux cur [' '] = wordsAux cur []
    by_cases h : cur.isEmpty <;> simp [wordsAux, h, hsp]
  | cons c cs ih =>
    intro cur
    simp only [List.cons_append]
    by_cases hw : isJsWhitespace c
    · by_cases h : cur.isEmpty <;> simp [wordsAux, hw, h, ih]
    · simp [wordsAux, hw, ih]

/-- Appending a single trailing space never changes the normalized form:
the space is either absorbed by a trailing line comment, left verbatim
behind an unterminated block comment and then collapsed, or trimmed by
the whitespace pass. -/
theorem normalizeTemplate_append_space (t : String) :
    normalizeTemplate (t ++ " ") = normalizeTemplate t := by
  unfold normalizeTemplate
  rw [String.data_append]
  show String.mk (joinWithSpaces (wordsAux []
    (stripBlockCommentsAux false (stripLineCommentsAux false (t.data ++ [' ']))))) = _
  rcases stripLineCommentsAux_append_space false t.data with h1 | h1
  · rw [h1]; rfl
  · rw [h1]
    rcases stripBlockCommentsAux_append_space false (stripLineCommentsAux false t.data) with h2 | h2
    · rw [h2]; rfl
    · rw [h2, wordsAux_append_space]; rfl

/-- Claim C4: normalization strips line comments and block comments,
collapses whitespace runs and trims: concretely the commented and the
plain spelling of the same query normalize to the identical string and
therefore hash to the same `sha256:` value, and appending trailing
whitespace never changes the normalized form or the hash. -/
theorem C4_normalize_insensitive :
    normalizeTemplate "SELECT 1 -- note\n  WHERE x=1" = "SELECT 1 WHERE x=1" ∧
    normalizeTemplate "SELECT 1 WHERE x=1" = "SELECT 1 WHERE x=1" ∧
    normalizeTemplate "SELECT 1 /* note\n more */ WHERE\tx=1" = "SELECT 1 WHERE x=1" ∧
    (∀ sha : String → String,
      hashTemplate sha "SELECT 1 -- note\n  WHERE x=1" =
        hashTemplate sha "SELECT 1 WHERE x=1") ∧
    (∀ t : String, normalizeTemplate (t ++ " ") = normalizeTemplate t) ∧
    (∀ (sha : String → String) (t : String),
      hashTemplate sha (t ++ " ") = hashTemplate sha t) := by
  refine ⟨by decide, by decide, by decide, fun sha => ?_,
    normalizeTemplate_append_space, fun sha t => ?_⟩
  · unfold hashTemplate
    rw [show normalizeTemplate "SELECT 1 -- note\n  WHERE x=1" =
          normalizeTemplate "SELECT 1 WHERE x=1" from by decide]
  · unfold hashTemplate
    rw [normalizeTemplate_append_space]

theorem replaceAllAux_fuel_congr (pat rep : List Char) :
    ∀ (f1 f2 : Nat) (l : List Char), l.length ≤ f1 → l.length ≤ f2 →
      replaceAllAux pat rep f1 l = replaceAllAux pat rep f2 l := by
  intro f1
  induction f1 with
  | zero =>
    intro f2 l h1 h2
    have hl : l = [] := List.length_eq_zero.mp (Nat.le_zero.mp h1)
    subst hl
    cases f2 <;> rfl
  | succ f ih =>
    intro f2 l h1 h2
    cases l with
    | nil => cases f2 <;> rfl
    | cons c cs =>
      cases f2 with
      | zero => simp at h2
      | succ g =>
        simp only [List.length_cons] at h1 h2
        have hcs1 : cs.length ≤ f := Nat.succ_le_succ_iff.mp h1
        have hcs2 : cs.length ≤ g := Nat.succ_le_succ_iff.mp h2
        simp only [replaceAllAux]
        by_cases hp : (!pat.isEmpty && pat.isPrefixOf (c :: cs)) = true
        · rw [if_pos hp, if_pos hp]
          have hpat : 1 ≤ pat.length := by
            rcases pat with _ | ⟨p, ps⟩
            · simp at hp
            · simp
          have hdrop : ((c :: cs).drop pat.length).length ≤ cs.length := by
            simp only [List.length_drop, List.length_cons]
            omega
          exact congrArg (rep ++ ·) (ih g _ (le_trans hdrop hcs1) (le_trans hdrop hcs2))
        · rw [if_neg hp, if_neg hp]
          exact congrArg (c :: ·) (ih g cs hcs1 hcs2)

theorem replaceAll_cons_of_no_match (pat rep : List Char) (c : Char) (cs : List Char)
    (h : pat.isPrefixOf (c :: cs) = false) :
    replaceAll pat rep (c :: cs) = c :: replaceAll pat rep cs := by
  unfold replaceAll
  simp [replaceAllAux, h]

theorem replaceAll_prefix_match (pat rep l : List Char) (hpat : pat ≠ []) :
    replaceAll pat rep (pat ++ l) = rep ++ replaceAll pat rep l := by
  unfold replaceAll
  rcases pat with _ | ⟨p, ps⟩
  · exact absurd rfl hpat
  · have hpre : (p :: ps).isPrefixOf ((p :: ps) ++ l) = true := by
      rw [ List.isPrefixOf_iff_prefix]
      exact List.prefix_append _ _
    have hdrop : ((p :: ps) ++ l).drop (p :: ps).length = l := List.drop_left _ _
    simp only [List.cons_append] at hpre hdrop ⊢
    simp only [List.length_append, List.length_cons]
    rw [replaceAllAux_fuel_congr (p :: ps) rep (ps.length + l.length + 1)
          ((ps ++ l).length + 1) (p :: (ps ++ l))
          (by simp [List.length_append]) (by simp [List.length_append])]
    simp only [replaceAllAux, hpre, List.isEmpty_cons, Bool.not_false, Bool.true_and,
      if_pos]
    rw [show List.drop (p :: ps).length (p :: (ps ++ l)) = l from hdrop]
    exact congrArg (rep ++ ·)
      (replaceAllAux_fuel_congr _ _ _ _ _ (by simp [List.length_append]) le_rfl)

/-- Does `pat` occur as a contiguous substring? -/
def occursIn (pat l : List Char) : Bool :=
  l.tails.any (fun t => pat.isPrefixOf t)

theorem occursIn_cons (pat : List Char) (c : Char) (cs : List Char) :
    occursIn pat (c :: cs) = (pat.isPrefixOf (c :: cs) || occursIn pat cs) := by
  simp [occursIn, List.tails_cons]

theorem replaceAll_of_not_occurs (pat rep : List Char) :
    ∀ l, occursIn pat l = false → replaceAll pat rep l = l := by
  intro l
  induction l with
  | nil => intro h; rfl
  | cons c cs ih =>
    intro h
    rw [occursIn_cons] at h
    rcases Bool.or_eq_false_iff.mp h with ⟨h1, h2⟩
    rw [replaceAll_cons_of_no_match pat rep c cs h1, ih h2]

theorem patAccepts_map_lit (p : List Char) :
    ∀ input, patAccepts (p.map PatToken.lit) input =
      if p.isPrefixOf input then some (input.drop p.length) else none := by
  induction p with
  | nil =>
    intro input
    simp [patAccepts, List.isPrefixOf]
  | cons a as ih =>
    intro input
    cases input with
    | nil => simp [patAccepts, List.isPrefixOf]
    | cons c cs =>
      simp only [List.map_cons, patAccepts, List.isPrefixOf, List.drop_succ_cons]
      by_cases hac : a = c
      · by_cases h2 : as.isPrefixOf cs = true <;> simp [hac, h2, ih cs]
      · have : (a == c) = false := by simp [hac]
        simp [hac, this]

theorem regexReplaceAllAux_map_lit (p rep : List Char) (hp : p ≠ []) :
    ∀ (fuel : Nat) (l : List Char),
      regexReplaceAllAux (p.map PatToken.lit) rep fuel l = replaceAllAux p rep fuel l := by
  intro fuel
  induction fuel with
  | zero => intro l; rfl
  | succ f ih =>
    intro l
    cases l with
    | nil => rfl
    | cons c cs =>
      simp only [regexReplaceAllAux, replaceAllAux, patAccepts_map_lit]
      have hne : (!p.isEmpty) = true := by
        cases p
        · exact absurd rfl hp
        · rfl
      by_cases hpre : p.isPrefixOf (c :: cs) = true
      · simp [hpre, hne, ih]
      · have : p.isPrefixOf (c :: cs) = false := by simp [hpre]
        simp [this, ih]

/-- For a key free of regex metacharacters, the compiled placeholder
pattern is the literal placeholder, and replacement by the compiled
pattern is literal replacement. -/
theorem regexReplaceAll_of_regexSafe (k : String) (hk : regexSafeKey k = true)
    (rep l : List Char) :
    regexReplaceAll (compilePlaceholderPattern k) rep l =
      replaceAll ("\x7b\x7b" ++ k ++ "\x7d\x7d").data rep l := by
  have hmap : k.data.map compilePatChar = k.data.map PatToken.lit := by
    apply List.map_congr_left
    intro c hc
    have hsafe := List.all_eq_true.mp hk c hc
    have hdot : c ≠ '.' := by
      intro hcontra
      subst hcontra
      simp [isRegexMeta] at hsafe
    simp [compilePatChar, hdot]
  have hpat : compilePlaceholderPattern k =
      (("\x7b\x7b" ++ k ++ "\x7d\x7d").data).map PatToken.lit := by
    unfold compilePlaceholderPattern
    rw [hmap]
    simp [String.data_append]
  have hne : ("\x7b\x7b" ++ k ++ "\x7d\x7d").data ≠ [] := by
    have h2 : ("\x7b\x7b" : String).data = ['\x7b', '\x7b'] := by decide
    simp [String.data_append, h2]
  rw [hpat]
  unfold regexReplaceAll replaceAll
  exact regexReplaceAllAux_map_lit _ rep hne _ l

/-- Claim C5 counterexample: the key is interpolated into the RegExp
unescaped, so for the key `user.id` the dot keeps its regex meaning: the
template `SELECT` followed by `userXid` in doubled braces — which
contains no occurrence of the literal placeholder of `user.id` — is
nevertheless rewritten to `SELECT 42`. -/
theorem C5_counterexample_metachar_key :
    occursIn ("\x7b\x7b" ++ "user.id" ++ "\x7d\x7d").data
        ("SELECT \x7b\x7buserXid\x7d\x7d" : String).data = false ∧
    substituteParams "SELECT \x7b\x7buserXid\x7d\x7d" [("user.id", "42")] =
      "SELECT 42" := by
  constructor <;> decide

/-- Claim C5 (amended): for each `{key: value}` entry whose key contains
no regex metacharacter, `substituteParams` replaces every occurrence of
the literal placeholder (open brace, open brace, key, close brace, close
brace) with the sanitized value: a placeholder-free template is left
unchanged, and a template starting with the placeholder has it replaced
with the scan continuing behind it.  For other keys the pattern is a
regular expression, so non-literal text can be rewritten.  In every case
the substituted text is `sanitizeParam value`: `sanitizeParam` deletes
every character outside alphanumeric/underscore/dot/brackets (concretely
`"42; DROP TABLE x"` becomes `"42DROPTABLEx"`), and every character of
every substituted value lies in that class. -/
theorem C5_substitute_params :
    sanitizeParam "42; DROP TABLE x" = "42DROPTABLEx" ∧
    (∀ v : String, (sanitizeParam v).data.all isSafeParamChar = true) ∧
    (∀ (t k v : String), regexSafeKey k = true →
      occursIn ("\x7b\x7b" ++ k ++ "\x7d\x7d").data t.data = false →
      substituteParams t [(k, v)] = t) ∧
    (∀ (k v : String) (l : List Char), regexSafeKey k = true →
      regexReplaceAll (compilePlaceholderPattern k) (sanitizeParam v).data
          (("\x7b\x7b" ++ k ++ "\x7d\x7d").data ++ l) =
        (sanitizeParam v).data ++
          regexReplaceAll (compilePlaceholderPattern k) (sanitizeParam v).data l) ∧
    substituteParams "SELECT * FROM t WHERE id=\x7b\x7bid\x7d\x7d"
        [("id", "7; DROP TABLE x")] = "SELECT * FROM t WHERE id=7DROPTABLEx" := by
  have hpatne : ∀ k : String, ("\x7b\x7b" ++ k ++ "\x7d\x7d").data ≠ [] := by
    intro k
    have h2 : ("\x7b\x7b" : String).data = ['\x7b', '\x7b'] := by decide
    simp [String.data_append, h2]
  refine ⟨by decide, fun v => ?_, fun t k v hk hocc => ?_, fun k v l hk => ?_, by decide⟩
  · simp only [sanitizeParam, List.all_eq_true]
    intro c hc
    exact (List.mem_filter.mp hc).2
  · unfold substituteParams
    simp only [List.foldl]
    rw [regexReplaceAll_of_regexSafe k hk]
    rw [replaceAll_of_not_occurs _ _ _ hocc]
  · rw [regexReplaceAll_of_regexSafe k hk, regexReplaceAll_of_regexSafe k hk]
    exact replaceAll_prefix_match _ _ l (hpatne k)

/-- Witness for C5: a regex-safe key leaves a placeholder-free template
untouched and the sanitizer strips the injection attempt. -/
theorem C5_substitute_params_witness :
    substituteParams "SELECT 1" [("id", "x")] = "SELECT 1" ∧
    sanitizeParam "42; DROP TABLE x" = "42DROPTABLEx" :=
  ⟨C5_substitute_params.2.2.1 "SELECT 1" "id" "x" (by decide) (by decide),
   C5_substitute_params.1⟩

theorem mapHas_mapSet (m : List (String × String)) (k v k' : String) :
    mapHas (mapSet m k v) k' = true ↔ (k' = k ∨ mapHas m k' = true) := by
  induction m with
  | nil =>
    simp [mapSet, mapHas]
    exact eq_comm
  | cons q rest ih =>
    simp only [mapSet]
    by_cases hk : q.1 = k
    · rw [if_pos hk]
      simp only [mapHas, List.any_cons, Bool.or_eq_true, decide_eq_true_eq]
      rw [hk]
      constructor
      · rintro (h | h)
        · exact Or.inl h.symm
        · exact Or.inr (Or.inr h)
      · rintro (h | h | h)
        · exact Or.inl h.symm
        · exact Or.inl h
        · exact Or.inr h
    · rw [if_neg hk]
      simp only [mapHas, List.any_cons, Bool.or_eq_true, decide_eq_true_eq] at ih ⊢
      tauto

theorem mapHas_buildHashMap (qs : List (String × String)) (h : String) :
    mapHas (buildHashMap qs) h = true ↔ h ∈ qs.map Prod.snd := by
  have key : ∀ (m : List (String × String)),
      mapHas (qs.foldl (fun m p => mapSet m p.2 p.1) m) h = true ↔
        (h ∈ qs.map Prod.snd ∨ mapHas m h = true) := by
    induction qs with
    | nil => intro m; simp
    | cons q rest ih =>
      intro m
      simp only [List.foldl_cons, List.map_cons, List.mem_cons]
      rw [ih, mapHas_mapSet]
      tauto
  unfold buildHashMap
  rw [key []]
  simp [mapHas]

theorem updateCatalog_ok_state (cv : String → String → Bool) (dm : String → Int)
    (st : AllowlistState) (c : QueryCatalog) (st1 : AllowlistState)
    (h : updateCatalog cv dm st c = (st1, none)) :
    st1 = { st with
            catalog := some c,
            expiresAt := some (dm c.expires_at),
            templateHashMap := buildHashMap c.queries } := by
  unfold updateCatalog at h
  by_cases hv : verifySignature cv st c
  · simp [hv] at h
    exact h.symm
  · simp [hv] at h

/-- Claim C2 (amended): `validateTemplate` raises `CATALOG_MISSING` with
no stored catalog, `CATALOG_EXPIRED` once the wall clock is past the
stored expiry, and otherwise `TEMPLATE_NOT_ALLOWED` exactly when the
template's hash is absent from the hash map — which, for a state produced
by a successful `updateCatalog`, holds exactly when the hash is not among
the values of the catalog's `queries` map.  For a single-entry catalog
whose hash is the hash of `T`, `validateTemplate T` and
`validateTemplate (T ++ " ")` succeed, and
`validateTemplate (T ++ "; DROP TABLE x")` raises `TEMPLATE_NOT_ALLOWED`
provided the injected suffix survives normalization with a distinct
digest (it is not absorbed by a trailing comment of `T`, and SHA-256 does
not collide on the two normalized forms). -/
theorem C2_validateTemplate_allowlist (sha : String → String) (now : Int) :
    (∀ (st : AllowlistState) (T : String), st.catalog = none →
      validateTemplate sha st now T =
        some { message := "Query catalog not yet received from server",
               code := .CATALOG_MISSING }) ∧
    (∀ (st : AllowlistState) (T : String) (c : QueryCatalog) (e : Int),
      st.catalog = some c → st.expiresAt = some e → now > e →
      validateTemplate sha st now T =
        some { message := "Query catalog has expired - waiting for refresh",
               code := .CATALOG_EXPIRED }) ∧
    (∀ (st : AllowlistState) (T : String) (c : QueryCatalog) (e : Int),
      st.catalog = some c → st.expiresAt = some e → now ≤ e →
      ((validateTemplate sha st now T =
          some { message := "Template not in approved catalog - execution blocked",
                 code := .TEMPLATE_NOT_ALLOWED }) ↔
        mapHas st.templateHashMap (hashTemplate sha T) = false) ∧
      (validateTemplate sha st now T = none ↔
        mapHas st.templateHashMap (hashTemplate sha T) = true)) ∧
    (∀ (cv : String → String → Bool) (dm : String → Int)
       (st0 st1 : AllowlistState) (c : QueryCatalog) (hsh : String),
      updateCatalog cv dm st0 c = (st1, none) →
      (mapHas st1.templateHashMap hsh = true ↔ hsh ∈ c.queries.map Prod.snd)) ∧
    (∀ (cv : String → String → Bool) (dm : String → Int)
       (st0 st1 : AllowlistState) (c : QueryCatalog) (toolId T : String) (e : Int),
      c.queries = [(toolId, hashTemplate sha T)] →
      updateCatalog cv dm st0 c = (st1, none) →
      st1.expiresAt = some e → now ≤ e →
      validateTemplate sha st1 now T = none ∧
      validateTemplate sha st1 now (T ++ " ") = none ∧
      (sha (normalizeTemplate (T ++ "; DROP TABLE x")) ≠ sha (normalizeTemplate T) →
        validateTemplate sha st1 now (T ++ "; DROP TABLE x") =
          some { message := "Template not in approved catalog - execution blocked",
                 code := .TEMPLATE_NOT_ALLOWED })) := by
  have hmissing : ∀ (st : AllowlistState) (T : String), st.catalog = none →
      validateTemplate sha st now T =
        some { message := "Query catalog not yet received from server",
               code := .CATALOG_MISSING } := by
    intro st T hc
    simp [validateTemplate, hasCatalog, hc]
  have hexpired : ∀ (st : AllowlistState) (T : String) (c : QueryCatalog) (e : Int),
      st.catalog = some c → st.expiresAt = some e → now > e →
      validateTemplate sha st now T =
        some { message := "Query catalog has expired - waiting for refresh",
               code := .CATALOG_EXPIRED } := by
    intro st T c e hc he hgt
    simp [validateTemplate, hasCatalog, hc, isCatalogExpired, he, hgt]
  have hfresh : ∀ (st : AllowlistState) (T : String) (c : QueryCatalog) (e : Int),
      st.catalog = some c → st.expiresAt = some e → now ≤ e →
      ((validateTemplate sha st now T =
          some { message := "Template not in approved catalog - execution blocked",
                 code := .TEMPLATE_NOT_ALLOWED }) ↔
        mapHas st.templateHashMap (hashTemplate sha T) = false) ∧
      (validateTemplate sha st now T = none ↔
        mapHas st.templateHashMap (hashTemplate sha T) = true) := by
    intro st T c e hc he hle
    have hnotgt : ¬(now > e) := not_lt.mpr hle
    by_cases hmap : mapHas st.templateHashMap (hashTemplate sha T) = true
    · simp [validateTemplate, hasCatalog, hc, isCatalogExpired, he, hnotgt, hmap]
    · simp only [Bool.not_eq_true] at hmap
      simp [validateTemplate, hasCatalog, hc, isCatalogExpired, he, hnotgt, hmap]
  have hmap : ∀ (cv : String → String → Bool) (dm : String → Int)
      (st0 st1 : AllowlistState) (c : QueryCatalog) (hsh : String),
      updateCatalog cv dm st0 c = (st1, none) →
      (mapHas st1.templateHashMap hsh = true ↔ hsh ∈ c.queries.map Prod.snd) := by
    intro cv dm st0 st1 c hsh hupd
    rw [updateCatalog_ok_state cv dm st0 c st1 hupd]
    exact mapHas_buildHashMap c.queries hsh
  refine ⟨hmissing, hexpired, hfresh, hmap, ?_⟩
  intro cv dm st0 st1 c toolId T e hq hupd hexp hle
  have hst1 := updateCatalog_ok_state cv dm st0 c st1 hupd
  have hcat : st1.catalog = some c := by rw [hst1]
  have hT : validateTemplate sha st1 now T = none := by
    rcases hfresh st1 T c e hcat hexp hle with ⟨_, h2⟩
    rw [h2, hmap cv dm st0 st1 c _ hupd, hq]
    simp
  have hTsp : validateTemplate sha st1 now (T ++ " ") = none := by
    rcases hfresh st1 (T ++ " ") c e hcat hexp hle with ⟨_, h2⟩
    rw [h2, hmap cv dm st0 st1 c _ hupd, hq]
    simp only [List.map_cons, List.map_nil, List.mem_singleton]
    unfold hashTemplate
    rw [normalizeTemplate_append_space]
  refine ⟨hT, hTsp, fun hdiff => ?_⟩
  rcases hfresh st1 (T ++ "; DROP TABLE x") c e hcat hexp hle with ⟨h1, _⟩
  rw [h1]
  have hiff := hmap cv dm st0 st1 c (hashTemplate sha (T ++ "; DROP TABLE x")) hupd
  rw [hq] at hiff
  simp only [List.map_cons, List.map_nil, List.mem_singleton] at hiff
  have hne : hashTemplate sha (T ++ "; DROP TABLE x") ≠ hashTemplate sha T := by
    unfold hashTemplate
    intro hcontra
    apply hdiff
    have hdata := congrArg String.data hcontra
    simp only [String.data_append] at hdata
    have := List.append_cancel_left hdata
    calc sha (normalizeTemplate (T ++ "; DROP TABLE x"))
        = String.mk (sha (normalizeTemplate (T ++ "; DROP TABLE x"))).data := by
          cases sha (normalizeTemplate (T ++ "; DROP TABLE x")); rfl
      _ = String.mk (sha (normalizeTemplate T)).data := congrArg String.mk this
      _ = sha (normalizeTemplate T) := by
          cases sha (normalizeTemplate T); rfl
  cases hcase : mapHas st1.templateHashMap (hashTemplate sha (T ++ "; DROP TABLE x"))
  · rfl
  · exact absurd (hiff.mp hcase) hne

/-- Claim C2 counterexample: for `T = "SELECT 1 --"` (a template ending
inside a line comment) and a catalog holding exactly the hash of
`normalize T`, `validateTemplate (T ++ "; DROP TABLE x")` does NOT raise
`TEMPLATE_NOT_ALLOWED` — it succeeds, because normalization strips the
injected suffix together with the trailing comment, so the hash matches
the catalog entry for every digest function. -/
theorem C2_counterexample_comment_absorbed :
    validateTemplate (fun s => s)
      ((updateCatalog (fun _ _ => true) (fun _ => 1000) (mkAllowlistService "CERT")
        { version := 1, generated_at := "2025-01-01T00:00:00Z",
          expires_at := "2025-01-01T01:00:00Z",
          queries := [("toolA", hashTemplate (fun s => s) "SELECT 1 --")],
          signature := "c2ln" }).1)
      500 ("SELECT 1 --" ++ "; DROP TABLE x") = none := by decide

/-- Witness for C2 at a concrete digest oracle, catalog and clock. -/
theorem C2_validateTemplate_allowlist_witness :
    validateTemplate (fun s => s)
      { caCertificate := "CERT",
        catalog := some { version := 1, generated_at := "2025-01-01T00:00:00Z",
                          expires_at := "2025-01-01T01:00:00Z",
                          queries := [("toolA", hashTemplate (fun s => s) "SELECT 1")],
                          signature := "c2ln" },
        templateHashMap := [("sha256:SELECT 1", "toolA")],
        expiresAt := some 1000 }
      500 "SELECT 1" = none ∧
    validateTemplate (fun s => s)
      { caCertificate := "CERT",
        catalog := some { version := 1, generated_at := "2025-01-01T00:00:00Z",
                          expires_at := "2025-01-01T01:00:00Z",
                          queries := [("toolA", hashTemplate (fun s => s) "SELECT 1")],
                          signature := "c2ln" },
        templateHashMap := [("sha256:SELECT 1", "toolA")],
        expiresAt := some 1000 }
      500 ("SELECT 1" ++ " ") = none ∧
    validateTemplate (fun s => s)
      { caCertificate := "CERT",
        catalog := some { version := 1, generated_at := "2025-01-01T00:00:00Z",
                          expires_at := "2025-01-01T01:00:00Z",
                          queries := [("toolA", hashTemplate (fun s => s) "SELECT 1")],
                          signature := "c2ln" },
        templateHashMap := [("sha256:SELECT 1", "toolA")],
        expiresAt := some 1000 }
      500 ("SELECT 1" ++ "; DROP TABLE x") =
      some { message := "Template not in approved catalog - execution blocked",
             code := .TEMPLATE_NOT_ALLOWED } ∧
    validateTemplate (fun s => s) (mkAllowlistService "CERT") 500 "SELECT 1" =
      some { message := "Query catalog not yet received from server",
             code := .CATALOG_MISSING } := by
  have h := (C2_validateTemplate_allowlist (fun s => s) 500).2.2.2.2
    (fun _ _ => true) (fun _ => 1000) (mkAllowlistService "CERT")
    { caCertificate := "CERT",
      catalog := some { version := 1, generated_at := "2025-01-01T00:00:00Z",
                        expires_at := "2025-01-01T01:00:00Z",
                        queries := [("toolA", hashTemplate (fun s => s) "SELECT 1")],
                        signature := "c2ln" },
      templateHashMap := [("sha256:SELECT 1", "toolA")],
      expiresAt := some 1000 }
    { version := 1, generated_at := "2025-01-01T00:00:00Z",
      expires_at := "2025-01-01T01:00:00Z",
      queries := [("toolA", hashTemplate (fun s => s) "SELECT 1")],
      signature := "c2ln" }
    "toolA" "SELECT 1" 1000 rfl (by decide) rfl (by decide)
  exact ⟨h.1, h.2.1, h.2.2 (by decide),
    (C2_validateTemplate_allowlist (fun s => s) 500).1 (mkAllowlistService "CERT")
      "SELECT 1" rfl⟩
